import Mathlib

/-!
Verification development for the `thecrowler-rules-converters` repository.

The repository contains independent Go command-line converters that translate
third-party technology-detection formats into one YAML ruleset schema:

* `cmd/convertTechJSON/main.go` — Wappalyzer-style `technologies.json`,
  category codes resolved through a static `categoryMappings` table
  (namespace `TechJSON` below);
* a second technologies.json converter reading category names from the
  input document itself and sanitizing category names for filenames
  (namespace `TechJSONCats` below);
* a BuiltWith-style JSON converter (namespace `BuiltWith`);
* a favicon MD5-hash CSV converter (namespace `Favicon`);
* `cmd/convertModSecurity/main.go` (namespace `ModSec`).

The embedding choices, shared by every namespace:

* Go maps (`map[string]string`, the technology dictionary, …) are embedded as
  association lists processed in list order.  Go's map iteration order is
  unspecified; every theorem below is about per-entry contributions, counts
  and membership, which are independent of that order.
* Go `nil` slices/maps and empty ones behave identically in the converters
  (every access is a guarded `range`), so both are embedded as `[]`.
* `float32` confidence fields only ever hold the exact integer literal `10`,
  so confidences are embedded as `Int`.
* `strings.ReplaceAll` is only used with single-character patterns and is
  embedded as a character map; `strings.ToLower` is used on ASCII rule names.
* File I/O, YAML encoding and `time.Now()` timestamps are external effects
  outside the embedding; the functions below model the pure record
  normalization and category bucketing pipeline.
-/

/-- A JSON value as produced by Go's `encoding/json` unmarshalling into an
`interface` value: strings, numbers, booleans, null, arrays and objects.
Objects are embedded as association lists in iteration order.  (Go numbers
decode to `float64`; only their type, never their value, matters to the
converters, so they are embedded as `Int`.) -/
inductive JValue where
  | str (s : String)
  | num (n : Int)
  | boolean (b : Bool)
  | null
  | arr (items : List JValue)
  | obj (entries : List (String × JValue))

/-- Embedding of Go `strings.ReplaceAll s (string a) (string b)` for
single-character `a`, `b`: replace every occurrence of the character `a`
by `b`. -/
def goReplaceAllChar (s : String) (a b : Char) : String :=
  ⟨s.data.map fun c => if c = a then b else c⟩

/-- Embedding of Go `strings.ToLower` for the ASCII names these converters
handle: lower-case each character. -/
def goToLower (s : String) : String :=
  ⟨s.data.map Char.toLower⟩

/-- Embedding of the rule-name formula shared by the converters:
`fmt.Sprintf("detect_%s", strings.ToLower(strings.ReplaceAll(name, " ", "_")))`. -/
def detectName (name : String) : String :=
  "detect_" ++ goToLower (goReplaceAllChar name ' ' '_')

/-- Embedding of the Go line guard `strings.HasPrefix(line, "#")`. -/
def lineIsComment (l : String) : Bool :=
  "#".data.isPrefixOf l.data

/-- Split a character list at every occurrence of a separator character,
keeping empty fields, as Go's field splitting does for plain rows. -/
def splitOnCharList (sep : Char) : List Char → List (List Char)
  | [] => [[]]
  | c :: cs =>
      let r := splitOnCharList sep cs
      if c = sep then [] :: r
      else
        match r with
        | f :: rest => (c :: f) :: rest
        | [] => [[c]]

namespace TJ

/-- `HTTPHeaderField` of the technologies.json converters (also used for
cookies): key, accepted values, confidence. -/
structure HTTPHeaderField where
  Key : String
  Value : List String
  Confidence : Int
deriving DecidableEq, Repr

/-- `SSLSignature`: declared in the schema, never populated by any converter. -/
structure SSLSignature where
  Key : String
  Value : List String
  Confidence : Int
deriving DecidableEq, Repr

/-- `MetaTag` signature: meta-tag name, content values, confidence. -/
structure MetaTag where
  Name : String
  Content : List String
  Confidence : Int
deriving DecidableEq, Repr

/-- `PageContentSignature`: tag key, optional attribute, literal substrings
(`value`), free text, confidence. -/
structure PageContentSignature where
  Key : String
  Attribute : String
  Signature : List String
  Text : List String
  Confidence : Int
deriving DecidableEq, Repr

/-- `URLMicroSignature`: URL substring and confidence. -/
structure URLMicroSignature where
  Signature : String
  Confidence : Int
deriving DecidableEq, Repr

/-- `DetectionRule` of the technologies.json converters. -/
structure DetectionRule where
  RuleName : String
  ObjectName : String
  Implies : List String
  HTTPHeaderFields : List HTTPHeaderField
  MetaTags : List MetaTag
  PageContentPatterns : List PageContentSignature
  SSLSignatures : List SSLSignature
  URLPatterns : List URLMicroSignature
deriving DecidableEq, Repr

/-- `Technology`, the source record of `technologies.json` (both
technologies.json converters declare the identical struct).  The `Meta`
field is `interface` in Go; `none` embeds Go `nil`. -/
structure Technology where
  Cats : List String
  Cookies : List (String × String)
  Headers : List (String × String)
  Meta : Option JValue
  Html : List String
  Scripts : List String
  URL : List String
  Website : String
  Implies : List String

/-- The string extraction used inside the meta `[]interface` arm:
`if str, ok := item.(string); ok` keeps exactly the string elements. -/
def strOf : JValue → Option String
  | .str s => some s
  | _ => none

/-- Per-entry contribution of one meta-map entry, from the inner `switch` of
`createRule`: a string value appends one meta tag with a singleton content
list; an array value appends one meta tag holding the array's string elements
in order; any other value type only logs and appends nothing. -/
def metaEntryTags : String × JValue → List MetaTag
  | (k, .str s) => [{ Name := k, Content := [s], Confidence := 10 }]
  | (k, .arr items) => [{ Name := k, Content := items.filterMap strOf, Confidence := 10 }]
  | _ => []

/-- Meta-tag list produced from the whole `Meta` field, from the outer
`switch` of `createRule`: a `nil` meta, a top-level array, and any
non-object value contribute nothing; an object is folded entry by entry.
(The Go `case map[string]string` arm is unreachable for values decoded by
`encoding/json`, which only ever produces `map[string]interface` objects,
so the embedding covers the decoded value space.) -/
def metaTagsOf : Option JValue → List MetaTag
  | some (.obj entries) => entries.foldl (fun acc kv => acc ++ metaEntryTags kv) []
  | _ => []

/-- The per-entry meta conversion as a single `Option`-valued step; used to
state the normalization claims.  `metaEntryTags` appends exactly the
`toList` of this option. -/
def metaEntryOpt : String × JValue → Option MetaTag
  | (k, .str s) => some { Name := k, Content := [s], Confidence := 10 }
  | (k, .arr items) => some { Name := k, Content := items.filterMap strOf, Confidence := 10 }
  | _ => none

/-- Append a detection rule to the bucket of the given category, creating the
bucket on first use (embeds `rulesets[category]` creation plus the
`append` into `RuleGroups[0].DetectionRules`).  Buckets are kept as an
association list from category name to the accumulated detection rules. -/
def addRule : List (String × List DetectionRule) → String → DetectionRule →
    List (String × List DetectionRule)
  | [], cat, r => [(cat, [r])]
  | (k, rs) :: rest, cat, r =>
      if k = cat then (k, rs ++ [r]) :: rest
      else (k, rs) :: addRule rest cat r

end TJ

namespace TechJSON

/-- The static category-code table of `cmd/convertTechJSON/main.go`,
transcribed entry for entry. -/
def categoryMappings : List (String × String) :=
  [("1", "cms"), ("3", "web_frameworks"), ("4", "documentation"), ("5", "widgets"),
   ("6", "ecommerce"), ("8", "miscellaneous"), ("9", "payment_processors"),
   ("10", "analytics"), ("11", "blogging_platforms"), ("12", "javascript_frameworks"),
   ("13", "advertising"), ("14", "video_players"), ("15", "captchas"),
   ("16", "security"), ("17", "databases"), ("18", "web_frameworks"),
   ("19", "javascript_libraries"), ("20", "editors"), ("21", "learning_management_systems"),
   ("22", "web_servers"), ("23", "search_engines"), ("24", "development"),
   ("25", "augmented_reality"), ("26", "file_sharing"), ("27", "rich_media"),
   ("28", "operating_systems"), ("29", "search_engines"), ("30", "load_balancers"),
   ("31", "cdns"), ("32", "marketing_automation"), ("33", "crm"),
   ("34", "tag_managers"), ("35", "translation_tools"), ("36", "advertising_networks"),
   ("41", "payment_processors"), ("42", "tag_managers"), ("44", "personalization"),
   ("46", "dmps"), ("47", "cloud_platforms"), ("48", "testing_tools"),
   ("49", "static_site_generators"), ("50", "feedback_and_surveys"),
   ("51", "portfolio_builders"), ("52", "live_chat"), ("53", "document_management_systems"),
   ("54", "seo"), ("55", "accounting"), ("56", "ssl_certificates"),
   ("57", "container_platforms"), ("58", "voice_platforms"), ("59", "animation_libraries"),
   ("60", "calendar"), ("62", "cloud_platforms"), ("63", "storage"),
   ("64", "dns"), ("65", "audio_libraries"), ("66", "performance"),
   ("67", "consent_management"), ("68", "accessibility"), ("69", "identity_management"),
   ("70", "certificates"), ("71", "affiliate_programs"), ("72", "scheduling"),
   ("73", "page_builders"), ("74", "a_b_testing"), ("75", "email_marketing"),
   ("76", "personalization"), ("77", "dmps"), ("78", "performance"),
   ("79", "anti_tracking"), ("80", "themes"), ("83", "cryptominers"),
   ("84", "data_management_platforms"), ("85", "media_servers"),
   ("86", "customer_data_platforms"), ("87", "wordpress_plugins"), ("88", "web_hosting"),
   ("89", "learning_management_systems"), ("90", "reviews"), ("91", "buy_now_pay_later"),
   ("92", "page_speed_optimizers"), ("93", "business_intelligence"), ("94", "referrals"),
   ("95", "digital_asset_management"), ("96", "webmail"), ("97", "customer_data_platforms"),
   ("98", "container_management"), ("99", "performance_monitoring"),
   ("100", "form_builders"), ("101", "documentation"), ("102", "return_management"),
   ("103", "cobrowsing"), ("104", "website_builders"), ("105", "augmented_reality"),
   ("106", "content_delivery_networks"), ("107", "order_management"),
   ("108", "anti_fraud"), ("109", "marketing_intelligence"), ("110", "form_builders"),
   ("111", "donation_management")]

/-- `createRule` of `cmd/convertTechJSON/main.go`: headers and cookies merge
into one header-field list; the meta field goes through `TJ.metaTagsOf`;
html and script substrings become page-content signatures; url substrings
become URL micro-signatures; a non-empty website adds one URL
micro-signature and one anchor/href page-content signature. -/
def createRule (name : String) (d : TJ.Technology) : TJ.DetectionRule :=
  { RuleName := detectName name
    ObjectName := name
    Implies := d.Implies
    HTTPHeaderFields :=
      d.Headers.map (fun kv => { Key := kv.1, Value := [kv.2], Confidence := 10 })
      ++ d.Cookies.map (fun kv => { Key := kv.1, Value := [kv.2], Confidence := 10 })
    MetaTags := TJ.metaTagsOf d.Meta
    PageContentPatterns :=
      d.Html.map (fun v =>
        { Key := "html", Attribute := "", Signature := [v], Text := [], Confidence := 10 })
      ++ d.Scripts.map (fun v =>
        { Key := "script", Attribute := "", Signature := [v], Text := [], Confidence := 10 })
      ++ (if d.Website ≠ "" then
            [{ Key := "a", Attribute := "href", Signature := [d.Website], Text := [],
               Confidence := 10 }]
          else [])
    SSLSignatures := []
    URLPatterns :=
      d.URL.map (fun v => { Signature := v, Confidence := 10 })
      ++ (if d.Website ≠ "" then [{ Signature := d.Website, Confidence := 10 }] else []) }

/-- One step of the category bucketing loop of `main`: for each category code
of the record, codes missing from `categoryMappings` are skipped
(`continue`), resolved codes append the rule to that category's bucket. -/
def stepTech (buckets : List (String × List TJ.DetectionRule))
    (nt : String × TJ.Technology) : List (String × List TJ.DetectionRule) :=
  let r := createRule nt.1 nt.2
  nt.2.Cats.foldl (fun b c =>
    (List.lookup c categoryMappings).elim b (fun cat => TJ.addRule b cat r)) buckets

/-- The whole bucketing pass of `main` over a technology dictionary. -/
def bucketsOfTechs (ts : List (String × TJ.Technology)) :
    List (String × List TJ.DetectionRule) :=
  ts.foldl stepTech []

/-- Output path formula of `main`: the category name is embedded verbatim,
with no sanitization. -/
def outputFilename (outPath category : String) : String :=
  outPath ++ "/detect-" ++ category ++ "-ruleset.yaml"

end TechJSON

namespace TechJSONCats

/-- `createRule` of the category-aware technologies.json converter.  It is
identical to `TechJSON.createRule` except that a non-empty website adds,
besides the URL micro-signature, three page-content signatures:
anchor-tag `href`, link-tag `href`, and script-tag `src`. -/
def createRule (name : String) (d : TJ.Technology) : TJ.DetectionRule :=
  { RuleName := detectName name
    ObjectName := name
    Implies := d.Implies
    HTTPHeaderFields :=
      d.Headers.map (fun kv => { Key := kv.1, Value := [kv.2], Confidence := 10 })
      ++ d.Cookies.map (fun kv => { Key := kv.1, Value := [kv.2], Confidence := 10 })
    MetaTags := TJ.metaTagsOf d.Meta
    PageContentPatterns :=
      d.Html.map (fun v =>
        { Key := "html", Attribute := "", Signature := [v], Text := [], Confidence := 10 })
      ++ d.Scripts.map (fun v =>
        { Key := "script", Attribute := "", Signature := [v], Text := [], Confidence := 10 })
      ++ (if d.Website ≠ "" then
            [{ Key := "a", Attribute := "href", Signature := [d.Website], Text := [],
               Confidence := 10 },
             { Key := "link", Attribute := "href", Signature := [d.Website], Text := [],
               Confidence := 10 },
             { Key := "script", Attribute := "src", Signature := [d.Website], Text := [],
               Confidence := 10 }]
          else [])
    SSLSignatures := []
    URLPatterns :=
      d.URL.map (fun v => { Signature := v, Confidence := 10 })
      ++ (if d.Website ≠ "" then [{ Signature := d.Website, Confidence := 10 }] else []) }

/-- One step of the category bucketing loop of the category-aware `main`:
category codes are resolved against the input document's own category
dictionary (code to category name); unresolved codes are skipped. -/
def stepTech (catsDict : List (String × String))
    (buckets : List (String × List TJ.DetectionRule))
    (nt : String × TJ.Technology) : List (String × List TJ.DetectionRule) :=
  let r := createRule nt.1 nt.2
  nt.2.Cats.foldl (fun b c =>
    (List.lookup c catsDict).elim b (fun cat => TJ.addRule b cat r)) buckets

/-- The whole bucketing pass over a technology dictionary with the input's
category dictionary. -/
def bucketsOfTechs (catsDict : List (String × String))
    (ts : List (String × TJ.Technology)) : List (String × List TJ.DetectionRule) :=
  ts.foldl (stepTech catsDict) []

/-- Filename sanitization of the category-aware converter: three sequential
`strings.ReplaceAll` calls turning spaces, forward slashes and backslashes
into hyphens. -/
def sanitizeCategoryName (c : String) : String :=
  goReplaceAllChar (goReplaceAllChar (goReplaceAllChar c ' ' '-') '/' '-') '\\' '-'

/-- Output path formula of the category-aware `main`: the sanitized category
name is embedded in the filename fragment. -/
def outputFilename (outPath category : String) : String :=
  outPath ++ "/detect-" ++ sanitizeCategoryName category ++ "-ruleset.yaml"

end TechJSONCats
namespace BuiltWith

/-- `BuiltWithPatterns` of the BuiltWith converter: one URL substring, one
HTML substring, header key-value pairs. -/
structure BuiltWithPatterns where
  URL : String
  HTML : String
  Headers : List (String × String)

/-- `BuiltWithTechnology`: integer category codes, patterns, implied names. -/
structure BuiltWithTechnology where
  Categories : List Int
  Patterns : BuiltWithPatterns
  Implies : List String

/-- `DetectionRule` of the BuiltWith converter (no SSL signature list in this
converter's schema declaration). -/
structure DetectionRule where
  RuleName : String
  ObjectName : String
  Implies : List String
  HTTPHeaderFields : List TJ.HTTPHeaderField
  MetaTags : List TJ.MetaTag
  PageContentPatterns : List TJ.PageContentSignature
  URLPatterns : List TJ.URLMicroSignature
deriving DecidableEq, Repr

/-- The static category table of the BuiltWith converter. -/
def categoryMappings : List (Int × String) :=
  [(1, "cms"), (2, "web_frameworks")]

/-- `createRule` of the BuiltWith converter: headers become header-field
signatures; a non-empty HTML pattern becomes one `body` page-content
signature carrying the pattern in the free-text field; a non-empty URL
pattern becomes one URL micro-signature. -/
def createRule (name : String) (d : BuiltWithTechnology) : DetectionRule :=
  { RuleName := detectName name
    ObjectName := name
    Implies := d.Implies
    HTTPHeaderFields :=
      d.Patterns.Headers.map (fun kv => { Key := kv.1, Value := [kv.2], Confidence := 10 })
    MetaTags := []
    PageContentPatterns :=
      if d.Patterns.HTML ≠ "" then
        [{ Key := "body", Attribute := "", Signature := [], Text := [d.Patterns.HTML],
           Confidence := 10 }]
      else []
    URLPatterns :=
      if d.Patterns.URL ≠ "" then
        [{ Signature := d.Patterns.URL, Confidence := 10 }]
      else [] }

/-- Output path formula of the BuiltWith `main`: the category name is
embedded verbatim, with no sanitization. -/
def outputFilename (outPath category : String) : String :=
  outPath ++ "/detect-" ++ category ++ "-ruleset.yaml"

end BuiltWith

namespace Favicon

/-- `PageContentSignature` of the favicon converter; this converter's schema
declaration adds the `md5hash` list. -/
structure PageContentSignature where
  Key : String
  Attribute : String
  Signature : List String
  Text : List String
  MD5Hash : List String
  Confidence : Int
deriving DecidableEq, Repr

/-- `DetectionRule` of the favicon converter (no URL micro-signature list in
this converter's schema declaration). -/
structure DetectionRule where
  RuleName : String
  ObjectName : String
  Implies : List String
  HTTPHeaderFields : List TJ.HTTPHeaderField
  MetaTags : List TJ.MetaTag
  PageContentPatterns : List PageContentSignature
  SSLSignatures : List TJ.SSLSignature
deriving DecidableEq, Repr

/-- `createFaviconRule`: the rule name is derived from the description, the
object name is the description, and the only populated signature list is a
single page-content signature holding the MD5 hash.  The `id` argument is
accepted and unused, as in the source. -/
def createFaviconRule (id md5hash description : String) : DetectionRule :=
  { RuleName := detectName description
    ObjectName := description
    Implies := []
    HTTPHeaderFields := []
    MetaTags := []
    PageContentPatterns :=
      [{ Key := "", Attribute := "", Signature := [], Text := [], MD5Hash := [md5hash],
         Confidence := 10 }]
    SSLSignatures := [] }

/-- Embedding of Go `strings.Trim s (string c)` for the single-character
cutset used by the converter: drop every leading and trailing `c`. -/
def goTrimChar (s : String) (c : Char) : String :=
  ⟨((s.data.dropWhile (fun ch => ch == c)).reverse.dropWhile (fun ch => ch == c)).reverse⟩

/-- CSV field split for one input line.  The converter hands each line to
`encoding/csv`; for the plain comma-separated quoted rows this format uses
(no embedded commas, quotes or escapes — library-level CSV decoding is an
external collaborator) that is a split on commas, with the quotes then
stripped by the converter's own `strings.Trim`. -/
def parseCSVFields (l : String) : List String :=
  (splitOnCharList ',' l.data).map (fun cs => (⟨cs⟩ : String))

/-- Per-line processing of the favicon `main` loop: skip comments and empty
lines, skip lines without exactly 3 fields, otherwise trim quotes from the
three fields and build the rule. -/
def processFaviconLine (l : String) : Option DetectionRule :=
  if lineIsComment l || l.length == 0 then none
  else
    match parseCSVFields l with
    | [f0, f1, f2] =>
        some (createFaviconRule (goTrimChar f0 '"') (goTrimChar f1 '"') (goTrimChar f2 '"'))
    | _ => none

/-- All rules produced from a list of data lines. -/
def processFaviconLines (ls : List String) : List DetectionRule :=
  ls.filterMap processFaviconLine

/-- The whole favicon file pass: the first `scanner.Scan()` consumes the
first line unconditionally as a header; the loop then processes the rest. -/
def processFaviconFile : List String → List DetectionRule
  | [] => []
  | _ :: rest => processFaviconLines rest

end Favicon

namespace ModSec

/-- `ModSecurityRule`, the intermediate record of the ModSecurity converter.
Go zero values (empty strings, empty map) stand for fields whose regex
found no match; the `Headers` map is never populated by the source. -/
structure ModSecurityRule where
  ID : String
  Phase : String
  Action : String
  Status : String
  Message : String
  UserAgent : String
  Headers : List (String × String)
deriving DecidableEq, Repr

/-- `DetectionRule` of the ModSecurity converter: only header fields. -/
structure DetectionRule where
  RuleName : String
  ObjectName : String
  HTTPHeaderFields : List TJ.HTTPHeaderField
deriving DecidableEq, Repr

/-- Leftmost match of a regex of shape `lit([^q]+)q` where `lit` is a literal
(ending in the opening `q`) and `q` is the closing delimiter, as
`regexp.FindStringSubmatch` computes it: scan positions left to right; a
position matches when the literal is a prefix there and is followed by at
least one non-`q` character and then a `q`; the capture is that non-`q`
run. -/
def quotedCapture (lit : List Char) (q : Char) : List Char → Option String
  | [] => none
  | c :: cs =>
      if lit.isPrefixOf (c :: cs) then
        let after := (c :: cs).drop lit.length
        let run := after.takeWhile (fun ch => ch ≠ q)
        if run ≠ [] ∧ run.length < after.length then some ⟨run⟩
        else quotedCapture lit q cs
      else quotedCapture lit q cs

/-- Leftmost match of a regex of shape `lit(\d+)`: scan positions left to
right; a position matches when the literal is a prefix there followed by at
least one digit; the capture is the maximal digit run. -/
def numCapture (lit : List Char) : List Char → Option String
  | [] => none
  | c :: cs =>
      if lit.isPrefixOf (c :: cs) then
        let run := ((c :: cs).drop lit.length).takeWhile Char.isDigit
        if run ≠ [] then some ⟨run⟩
        else numCapture lit cs
      else numCapture lit cs

/-- Word characters for the regex word boundary `\b`. -/
def isWordChar (c : Char) : Bool :=
  c.isAlphanum || c == '_'

/-- Leftmost match of `\b(deny|allow|log)\b`: at each position try the three
alternatives in order (their first letters differ, so at most one can
match), requiring a non-word character (or the string edge) on both
sides.  `prev` carries the character before the current position. -/
def actionScan (prev : Option Char) : List Char → Option String
  | [] => none
  | c :: cs =>
      let here := c :: cs
      let boundaryBefore : Bool :=
        match prev with
        | none => true
        | some p => !(isWordChar p)
      let tryWord : List Char → Option String := fun w =>
        let boundaryAfter : Bool :=
          match here.drop w.length with
          | [] => true
          | n :: _ => !(isWordChar n)
        if w.isPrefixOf here && boundaryBefore && boundaryAfter then some ⟨w⟩ else none
      match tryWord "deny".data with
      | some s => some s
      | none =>
        match tryWord "allow".data with
        | some s => some s
        | none =>
          match tryWord "log".data with
          | some s => some s
          | none => actionScan (some c) cs

/-- User-Agent extraction: first submatch of
`REQUEST_HEADERS:User-Agent "([^"]+)"`. -/
def uaOf (l : String) : Option String :=
  quotedCapture "REQUEST_HEADERS:User-Agent \"".data '"' l.data

/-- Rule-ID extraction: first submatch of `id:(\d+)`. -/
def idOf (l : String) : Option String :=
  numCapture "id:".data l.data

/-- Phase extraction: first submatch of `phase:(\d+)`. -/
def phaseOf (l : String) : Option String :=
  numCapture "phase:".data l.data

/-- Status extraction: first submatch of `status:(\d+)`. -/
def statusOf (l : String) : Option String :=
  numCapture "status:".data l.data

/-- Message extraction: first submatch of `msg:'([^']+)'`
(single-quote delimited). -/
def msgOf (l : String) : Option String :=
  quotedCapture ("msg:".data ++ [Char.ofNat 39]) (Char.ofNat 39) l.data

/-- Action extraction: first match of `\b(deny|allow|log)\b`. -/
def actionOf (l : String) : Option String :=
  actionScan none l.data

/-- `parseModSecurityRule`: run every extraction; fields whose regex found no
match keep the Go zero value (the empty string). -/
def parseModSecurityRule (l : String) : ModSecurityRule :=
  { ID := (idOf l).getD ""
    Phase := (phaseOf l).getD ""
    Action := (actionOf l).getD ""
    Status := (statusOf l).getD ""
    Message := (msgOf l).getD ""
    UserAgent := (uaOf l).getD ""
    Headers := [] }

/-- `createDetectionRuleFromModSecurity`: one header-field signature for key
`User-Agent`; the rule and object names splice in the extracted ID. -/
def createDetectionRuleFromModSecurity (r : ModSecurityRule) : DetectionRule :=
  { RuleName := "detect_modsec_rule_" ++ r.ID
    ObjectName := "ModSecurity Rule " ++ r.ID
    HTTPHeaderFields := [{ Key := "User-Agent", Value := [r.UserAgent], Confidence := 10 }] }

/-- The parse-and-filter stage of the `main` loop (after the comment and
empty-line skip): a rule is kept exactly when a User-Agent was extracted. -/
def ruleOfLine (l : String) : Option DetectionRule :=
  let r := parseModSecurityRule l
  if r.UserAgent ≠ "" then some (createDetectionRuleFromModSecurity r) else none

/-- Per-line processing of the `main` loop, comment and empty-line skip
included. -/
def processLine (l : String) : Option DetectionRule :=
  if lineIsComment l || l.length == 0 then none
  else ruleOfLine l

/-- All detection rules emitted for a list of input lines. -/
def processLines (ls : List String) : List DetectionRule :=
  ls.filterMap processLine

/-- Output path formula of the ModSecurity `main` (a fixed single file). -/
def outputFilename (outPath : String) : String :=
  outPath ++ "/detect-modsecurity-ruleset.yaml"

end ModSec

/-! ### Measuring functions and concrete inputs used by the statements -/

/-- Count the signatures of a technologies.json detection rule that reference
a given URL string: URL micro-signatures whose value is the string, plus
page-content signatures whose value list is exactly that string. -/
def urlRefCount (r : TJ.DetectionRule) (w : String) : Nat :=
  (r.URLPatterns.filter (fun u => u.Signature == w)).length
  + (r.PageContentPatterns.filter (fun p => p.Signature == [w])).length

/-- Check that every signature of a technologies.json detection rule carries
confidence 10. -/
def confAllTenTJ (r : TJ.DetectionRule) : Bool :=
  r.HTTPHeaderFields.all (fun s => s.Confidence == 10)
  && r.MetaTags.all (fun s => s.Confidence == 10)
  && r.PageContentPatterns.all (fun s => s.Confidence == 10)
  && r.SSLSignatures.all (fun s => s.Confidence == 10)
  && r.URLPatterns.all (fun s => s.Confidence == 10)

/-- Check that every signature of a BuiltWith detection rule carries
confidence 10. -/
def confAllTenBW (r : BuiltWith.DetectionRule) : Bool :=
  r.HTTPHeaderFields.all (fun s => s.Confidence == 10)
  && r.MetaTags.all (fun s => s.Confidence == 10)
  && r.PageContentPatterns.all (fun s => s.Confidence == 10)
  && r.URLPatterns.all (fun s => s.Confidence == 10)

/-- Check that every signature of a favicon detection rule carries
confidence 10. -/
def confAllTenFav (r : Favicon.DetectionRule) : Bool :=
  r.HTTPHeaderFields.all (fun s => s.Confidence == 10)
  && r.MetaTags.all (fun s => s.Confidence == 10)
  && r.PageContentPatterns.all (fun s => s.Confidence == 10)
  && r.SSLSignatures.all (fun s => s.Confidence == 10)

/-- Check that every signature of a ModSecurity detection rule carries
confidence 10. -/
def confAllTenMS (r : ModSec.DetectionRule) : Bool :=
  r.HTTPHeaderFields.all (fun s => s.Confidence == 10)

/-- A technology record whose only populated field is the website URL. -/
def exTechWebsiteOnly : TJ.Technology :=
  { Cats := [], Cookies := [], Headers := [], Meta := none, Html := [], Scripts := [],
    URL := [], Website := "https://example.com", Implies := [] }

/-- A technology record tagged with category codes 1 and 3 and nothing else. -/
def exTechTwoCats : TJ.Technology :=
  { Cats := ["1", "3"], Cookies := [], Headers := [], Meta := none, Html := [], Scripts := [],
    URL := [], Website := "", Implies := [] }

/-- A technology record whose every category code is absent from both the
static table and the sample input category dictionary. -/
def exTechBadCats : TJ.Technology :=
  { Cats := ["999", "banana"], Cookies := [], Headers := [], Meta := none, Html := [],
    Scripts := [], URL := [], Website := "", Implies := [] }

/-- A technology record with one unresolved category code (`999`) and one
resolved one (`1`, mapping to `cms` in the static table). -/
def exTechMixedCats : TJ.Technology :=
  { Cats := ["999", "1"], Cookies := [], Headers := [], Meta := none, Html := [],
    Scripts := [], URL := [], Website := "", Implies := [] }

/-- A technology record with a mixed-shape meta object. -/
def exTechMeta : TJ.Technology :=
  { Cats := [], Cookies := [], Headers := [], Html := [], Scripts := [], URL := [],
    Website := "", Implies := [],
    Meta := some (.obj [("a", .str "x"), ("b", .arr [.str "x", .num 5, .str "y"]),
                        ("c", .num 5)]) }

/-- A commented-out ModSecurity line that still contains both an `id:12345`
token and a `REQUEST_HEADERS:User-Agent "BadBot"` operand. -/
def modsecCommentLine : String :=
  "# SecRule REQUEST_HEADERS:User-Agent \"BadBot\" \"id:12345,phase:1,deny,status:403\""

/-- A well-formed ModSecurity line with id 12345 and User-Agent BadBot. -/
def modsecGoodLine : String :=
  "SecRule REQUEST_HEADERS:User-Agent \"BadBot\" \"id:12345,phase:1,deny,status:403\""

/-- A ModSecurity line with no User-Agent operand at all. -/
def modsecNoUALine : String :=
  "SecRule REQUEST_URI \"@contains /admin\" \"id:99,phase:1,deny\""

/-- A ModSecurity line with a User-Agent operand but no `id:<digits>` token. -/
def modsecNoIdLine : String :=
  "SecRule REQUEST_HEADERS:User-Agent \"EvilBot\" \"phase:2,deny\""

/-- The favicon data row of the spec example. -/
def faviconDataRow : String :=
  "\"1\",\"abc123\",\"Drupal\""

/-! ### Helper lemmas -/

/-- Each meta-map entry appends exactly the `toList` of its option-valued
conversion. -/
theorem metaEntryTags_eq_toList (kv : String × JValue) :
    TJ.metaEntryTags kv = (TJ.metaEntryOpt kv).toList := by
  rcases kv with ⟨k, v⟩
  cases v <;> rfl

/-- The entry-by-entry fold of the meta switch accumulates exactly the
`filterMap` of the per-entry conversion. -/
theorem metaFold_eq_filterMap (entries : List (String × JValue))
    (acc : List TJ.MetaTag) :
    entries.foldl (fun a kv => a ++ TJ.metaEntryTags kv) acc
      = acc ++ entries.filterMap TJ.metaEntryOpt := by
  induction entries generalizing acc with
  | nil => simp
  | cons kv t ih =>
      rw [List.foldl_cons, ih, List.filterMap_cons, metaEntryTags_eq_toList]
      cases h : TJ.metaEntryOpt kv <;> simp [h]

/-- On an object-shaped meta value, `metaTagsOf` is the `filterMap` of the
per-entry conversion, in entry order. -/
theorem metaTagsOf_obj (entries : List (String × JValue)) :
    TJ.metaTagsOf (some (.obj entries)) = entries.filterMap TJ.metaEntryOpt := by
  rw [TJ.metaTagsOf, metaFold_eq_filterMap, List.nil_append]

/-- A `filterMap` whose every produced element satisfies `p` satisfies
`List.all p`. -/
theorem all_filterMap_of_imp {α β : Type} {f : α → Option β} {p : β → Bool}
    (l : List α) (h : ∀ a b, f a = some b → p b = true) :
    (l.filterMap f).all p = true := by
  induction l with
  | nil => rfl
  | cons a t ih =>
      rw [List.filterMap_cons]
      cases hfa : f a with
      | none => exact ih
      | some b => simp [List.all_cons, h a b hfa, ih]

/-- Every meta tag produced by the per-entry conversion carries confidence 10. -/
theorem metaEntryOpt_confidence (kv : String × JValue) (t : TJ.MetaTag)
    (h : TJ.metaEntryOpt kv = some t) : t.Confidence = 10 := by
  rcases kv with ⟨k, v⟩
  cases v <;> simp [TJ.metaEntryOpt] at h <;> simp [← h]

/-- Every meta tag produced from any meta value carries confidence 10. -/
theorem metaTagsOf_confidence (m : Option JValue) :
    (TJ.metaTagsOf m).all (fun t => t.Confidence == 10) = true := by
  cases m with
  | none => rfl
  | some v =>
      cases v with
      | obj entries =>
          rw [metaTagsOf_obj]
          exact all_filterMap_of_imp entries fun kv t h => by
            simp [metaEntryOpt_confidence kv t h]
      | str s => rfl
      | num n => rfl
      | boolean b => rfl
      | null => rfl
      | arr items => rfl

/-- All header-field signatures of a `TechJSON.createRule` rule carry
confidence 10. -/
theorem conf_http (n : String) (d : TJ.Technology) :
    (TechJSON.createRule n d).HTTPHeaderFields.all (fun s => s.Confidence == 10) = true := by
  simp only [List.all_eq_true]
  intro x hx
  simp only [TechJSON.createRule, List.mem_append, List.mem_map] at hx
  rcases hx with ⟨kv, _, rfl⟩ | ⟨kv, _, rfl⟩ <;> rfl

/-- The meta tags of a `TechJSON.createRule` rule carry confidence 10. -/
theorem conf_meta_TJ (n : String) (d : TJ.Technology) :
    (TechJSON.createRule n d).MetaTags.all (fun s => s.Confidence == 10) = true :=
  metaTagsOf_confidence d.Meta

/-- All page-content signatures of a `TechJSON.createRule` rule carry
confidence 10. -/
theorem conf_page_TJ (n : String) (d : TJ.Technology) :
    (TechJSON.createRule n d).PageContentPatterns.all (fun s => s.Confidence == 10) = true := by
  simp only [List.all_eq_true]
  intro x hx
  simp only [TechJSON.createRule, List.mem_append, List.mem_map] at hx
  rcases hx with (⟨v, _, rfl⟩ | ⟨v, _, rfl⟩) | hx
  · rfl
  · rfl
  · split at hx
    · simp only [List.mem_singleton] at hx
      subst hx; rfl
    · simp at hx

/-- The SSL signature list of a `TechJSON.createRule` rule is empty. -/
theorem conf_ssl (n : String) (d : TJ.Technology) :
    (TechJSON.createRule n d).SSLSignatures.all (fun s => s.Confidence == 10) = true := rfl

/-- All URL micro-signatures of a `TechJSON.createRule` rule carry
confidence 10. -/
theorem conf_url_TJ (n : String) (d : TJ.Technology) :
    (TechJSON.createRule n d).URLPatterns.all (fun s => s.Confidence == 10) = true := by
  simp only [List.all_eq_true]
  intro x hx
  simp only [TechJSON.createRule, List.mem_append, List.mem_map] at hx
  rcases hx with ⟨v, _, rfl⟩ | hx
  · rfl
  · split at hx
    · simp only [List.mem_singleton] at hx
      subst hx; rfl
    · simp at hx

/-- All header-field signatures of a `TechJSONCats.createRule` rule carry
confidence 10. -/
theorem conf_http_cats (n : String) (d : TJ.Technology) :
    (TechJSONCats.createRule n d).HTTPHeaderFields.all (fun s => s.Confidence == 10) = true := by
  simp only [List.all_eq_true]
  intro x hx
  simp only [TechJSONCats.createRule, List.mem_append, List.mem_map] at hx
  rcases hx with ⟨kv, _, rfl⟩ | ⟨kv, _, rfl⟩ <;> rfl

/-- The meta tags of a `TechJSONCats.createRule` rule carry confidence 10. -/
theorem conf_meta_cats (n : String) (d : TJ.Technology) :
    (TechJSONCats.createRule n d).MetaTags.all (fun s => s.Confidence == 10) = true :=
  metaTagsOf_confidence d.Meta

/-- All page-content signatures of a `TechJSONCats.createRule` rule carry
confidence 10. -/
theorem conf_page_cats (n : String) (d : TJ.Technology) :
    (TechJSONCats.createRule n d).PageContentPatterns.all (fun s => s.Confidence == 10)
      = true := by
  simp only [List.all_eq_true]
  intro x hx
  simp only [TechJSONCats.createRule, List.mem_append, List.mem_map] at hx
  rcases hx with (⟨v, _, rfl⟩ | ⟨v, _, rfl⟩) | hx
  · rfl
  · rfl
  · split at hx
    · simp only [List.mem_cons, List.not_mem_nil, or_false] at hx
      rcases hx with rfl | rfl | rfl <;> rfl
    · simp at hx

/-- The SSL signature list of a `TechJSONCats.createRule` rule is empty. -/
theorem conf_ssl_cats (n : String) (d : TJ.Technology) :
    (TechJSONCats.createRule n d).SSLSignatures.all (fun s => s.Confidence == 10) = true := rfl

/-- All URL micro-signatures of a `TechJSONCats.createRule` rule carry
confidence 10. -/
theorem conf_url_cats (n : String) (d : TJ.Technology) :
    (TechJSONCats.createRule n d).URLPatterns.all (fun s => s.Confidence == 10) = true := by
  simp only [List.all_eq_true]
  intro x hx
  simp only [TechJSONCats.createRule, List.mem_append, List.mem_map] at hx
  rcases hx with ⟨v, _, rfl⟩ | hx
  · rfl
  · split at hx
    · simp only [List.mem_singleton] at hx
      subst hx; rfl
    · simp at hx

/-- All header-field signatures of a `BuiltWith.createRule` rule carry
confidence 10. -/
theorem conf_http_bw (n : String) (d : BuiltWith.BuiltWithTechnology) :
    (BuiltWith.createRule n d).HTTPHeaderFields.all (fun s => s.Confidence == 10) = true := by
  simp only [List.all_eq_true]
  intro x hx
  simp only [BuiltWith.createRule, List.mem_map] at hx
  rcases hx with ⟨kv, _, rfl⟩
  rfl

/-- All page-content signatures of a `BuiltWith.createRule` rule carry
confidence 10. -/
theorem conf_page_bw (n : String) (d : BuiltWith.BuiltWithTechnology) :
    (BuiltWith.createRule n d).PageContentPatterns.all (fun s => s.Confidence == 10) = true := by
  simp only [List.all_eq_true]
  intro x hx
  simp only [BuiltWith.createRule] at hx
  split at hx
  · simp only [List.mem_singleton] at hx
    subst hx; rfl
  · simp at hx

/-- All URL micro-signatures of a `BuiltWith.createRule` rule carry
confidence 10. -/
theorem conf_url_bw (n : String) (d : BuiltWith.BuiltWithTechnology) :
    (BuiltWith.createRule n d).URLPatterns.all (fun s => s.Confidence == 10) = true := by
  simp only [List.all_eq_true]
  intro x hx
  simp only [BuiltWith.createRule] at hx
  split at hx
  · simp only [List.mem_singleton] at hx
    subst hx; rfl
  · simp at hx

/-! ### Claim theorems -/

/-- C7: For every input of every converter, every signature placed in an
emitted DetectionRule (header field, meta tag, page content, URL
micro-signature, SSL) has confidence exactly 10; no other confidence value
ever appears.  Stated for the rule constructors of all five converters,
which are the only places signatures are created. -/
theorem claim_confidence_always_ten :
    (∀ (n : String) (d : TJ.Technology), confAllTenTJ (TechJSON.createRule n d) = true)
    ∧ (∀ (n : String) (d : TJ.Technology), confAllTenTJ (TechJSONCats.createRule n d) = true)
    ∧ (∀ (n : String) (d : BuiltWith.BuiltWithTechnology),
        confAllTenBW (BuiltWith.createRule n d) = true)
    ∧ (∀ (i m desc : String), confAllTenFav (Favicon.createFaviconRule i m desc) = true)
    ∧ (∀ (r : ModSec.ModSecurityRule),
        confAllTenMS (ModSec.createDetectionRuleFromModSecurity r) = true) := by
  refine ⟨fun n d => ?_, fun n d => ?_, fun n d => ?_, fun i m desc => ?_, fun r => ?_⟩
  · show (_ && _ && _ && _ && _) = true
    rw [conf_http n d, conf_meta_TJ n d, conf_page_TJ n d, conf_ssl n d, conf_url_TJ n d]
    rfl
  · show (_ && _ && _ && _ && _) = true
    rw [conf_http_cats n d, conf_meta_cats n d, conf_page_cats n d, conf_ssl_cats n d,
      conf_url_cats n d]
    rfl
  · show (_ && _ && _ && _) = true
    rw [conf_http_bw n d, conf_page_bw n d, conf_url_bw n d]
    rfl
  · rfl
  · rfl

/-- C2: meta normalization.  When the meta field decodes to an object, the
rule's meta tags are exactly the in-order per-entry conversion: a string
value yields one tag with a singleton content list, an array value yields
one tag whose content is the array's string elements in order, any other
value type yields nothing for that entry; and the rest of the rule does not
depend on the meta field at all.  Both technologies.json converters behave
identically here. -/
theorem claim_meta_normalization (n : String) (d : TJ.Technology)
    (entries : List (String × JValue)) (hm : d.Meta = some (JValue.obj entries)) :
    ((TechJSON.createRule n d).MetaTags = entries.filterMap TJ.metaEntryOpt)
    ∧ ((TechJSONCats.createRule n d).MetaTags = entries.filterMap TJ.metaEntryOpt)
    ∧ (∀ k s, TJ.metaEntryOpt (k, JValue.str s)
        = some { Name := k, Content := [s], Confidence := 10 })
    ∧ (∀ k items, TJ.metaEntryOpt (k, JValue.arr items)
        = some { Name := k, Content := items.filterMap TJ.strOf, Confidence := 10 })
    ∧ (∀ k v, (∀ s, v ≠ JValue.str s) → (∀ items, v ≠ JValue.arr items) →
        TJ.metaEntryOpt (k, v) = none)
    ∧ (∀ m' : Option JValue,
        (TechJSON.createRule n { d with Meta := m' }).RuleName
            = (TechJSON.createRule n d).RuleName
        ∧ (TechJSON.createRule n { d with Meta := m' }).ObjectName
            = (TechJSON.createRule n d).ObjectName
        ∧ (TechJSON.createRule n { d with Meta := m' }).Implies
            = (TechJSON.createRule n d).Implies
        ∧ (TechJSON.createRule n { d with Meta := m' }).HTTPHeaderFields
            = (TechJSON.createRule n d).HTTPHeaderFields
        ∧ (TechJSON.createRule n { d with Meta := m' }).PageContentPatterns
            = (TechJSON.createRule n d).PageContentPatterns
        ∧ (TechJSON.createRule n { d with Meta := m' }).SSLSignatures
            = (TechJSON.createRule n d).SSLSignatures
        ∧ (TechJSON.createRule n { d with Meta := m' }).URLPatterns
            = (TechJSON.createRule n d).URLPatterns
        ∧ (TechJSONCats.createRule n { d with Meta := m' }).PageContentPatterns
            = (TechJSONCats.createRule n d).PageContentPatterns
        ∧ (TechJSONCats.createRule n { d with Meta := m' }).URLPatterns
            = (TechJSONCats.createRule n d).URLPatterns) := by
  refine ⟨?_, ?_, fun k s => rfl, fun k items => rfl, ?_, ?_⟩
  · show TJ.metaTagsOf d.Meta = _
    rw [hm, metaTagsOf_obj]
  · show TJ.metaTagsOf d.Meta = _
    rw [hm, metaTagsOf_obj]
  · intro k v hs ha
    cases v with
    | str s => exact absurd rfl (hs s)
    | arr items => exact absurd rfl (ha items)
    | num q => rfl
    | boolean b => rfl
    | null => rfl
    | obj es => rfl
  · intro m'
    exact ⟨rfl, rfl, rfl, rfl, rfl, rfl, rfl, rfl, rfl⟩

/-- Witness for C2: the mixed-shape meta object of `exTechMeta` produces
exactly the two expected meta tags — the string entry and the array entry,
the numeric entry dropped. -/
theorem claim_meta_normalization_witness :
    (TechJSON.createRule "Example" exTechMeta).MetaTags
      = [{ Name := "a", Content := ["x"], Confidence := 10 },
         { Name := "b", Content := ["x", "y"], Confidence := 10 }] :=
  (claim_meta_normalization "Example" exTechMeta
      [("a", .str "x"), ("b", .arr [.str "x", .num 5, .str "y"]), ("c", .num 5)]
      rfl).1.trans (by decide)

/-- C4: the favicon data row `"1","abc123","Drupal"`, arriving after the
header row, produces exactly one detection rule named `detect_drupal` with
object name `Drupal`, a single page-content signature whose MD5-hash list
is `["abc123"]`, and every other signature list empty.  Stated for an
arbitrary header line, which the file pass always discards. -/
theorem claim_favicon_row_rule (h : String) :
    Favicon.processFaviconFile [h, faviconDataRow]
      = [{ RuleName := "detect_drupal", ObjectName := "Drupal", Implies := [],
           HTTPHeaderFields := [], MetaTags := [],
           PageContentPatterns := [{ Key := "", Attribute := "", Signature := [], Text := [],
                                     MD5Hash := ["abc123"], Confidence := 10 }],
           SSLSignatures := [] }] := by
  show Favicon.processFaviconLines [faviconDataRow] = _
  decide

/-- C10: the favicon converter discards the first input line unconditionally,
whatever its content; in particular a file whose first line is itself a
well-formed data row produces no rule for it. -/
theorem claim_favicon_header_dropped :
    (∀ (l : String) (rest : List String),
        Favicon.processFaviconFile (l :: rest) = Favicon.processFaviconLines rest)
    ∧ Favicon.processFaviconLine faviconDataRow
        = some (Favicon.createFaviconRule "1" "abc123" "Drupal")
    ∧ Favicon.processFaviconFile [faviconDataRow] = [] :=
  ⟨fun l rest => rfl, by decide, rfl⟩

/-- C5: category fan-out in the static-table converter.  The table maps `1`
to `cms` and `3` to `web_frameworks`, and a technology tagged `["1","3"]`
lands the same detection rule value in the `cms` bucket and, independently,
in the `web_frameworks` bucket. -/
theorem claim_category_fanout (n : String) (d : TJ.Technology)
    (h : d.Cats = ["1", "3"]) :
    List.lookup "1" TechJSON.categoryMappings = some "cms"
    ∧ List.lookup "3" TechJSON.categoryMappings = some "web_frameworks"
    ∧ TechJSON.bucketsOfTechs [(n, d)]
        = [("cms", [TechJSON.createRule n d]),
           ("web_frameworks", [TechJSON.createRule n d])] := by
  have h1 : List.lookup "1" TechJSON.categoryMappings = some "cms" := rfl
  have h3 : List.lookup "3" TechJSON.categoryMappings = some "web_frameworks" := rfl
  refine ⟨h1, h3, ?_⟩
  show TechJSON.stepTech [] (n, d) = _
  simp only [TechJSON.stepTech, h, List.foldl_cons, List.foldl_nil, h1, h3, Option.elim]
  rfl

/-- Witness for C5 at a concrete record tagged with categories 1 and 3. -/
theorem claim_category_fanout_witness :
    TechJSON.bucketsOfTechs [("T", exTechTwoCats)]
      = [("cms", [TechJSON.createRule "T" exTechTwoCats]),
         ("web_frameworks", [TechJSON.createRule "T" exTechTwoCats])] :=
  (claim_category_fanout "T" exTechTwoCats rfl).2.2

/-- A fold over category codes that all miss the lookup table leaves the
accumulator untouched. -/
theorem foldl_lookup_none {γ β : Type} (tbl : List (String × γ)) (g : β → γ → β) :
    ∀ (cats : List String) (acc : β), (∀ c ∈ cats, List.lookup c tbl = none) →
      cats.foldl (fun b c =>
          (List.lookup c tbl).elim b (fun v => g b v)) acc = acc := by
  intro cats
  induction cats with
  | nil => intro acc _; rfl
  | cons c t ih =>
      intro acc hall
      have hc : List.lookup c tbl = none := hall c (List.mem_cons_self c t)
      simp only [List.foldl_cons, hc, Option.elim]
      exact ih acc fun x hx => hall x (List.mem_cons_of_mem c hx)

/-- A fold over category codes guarded by a lookup equals the plain fold over
the in-order list of resolved lookup results: each unresolved code is
skipped by itself, affecting no other code's bucket. -/
theorem foldl_lookup_filterMap {γ β : Type} (tbl : List (String × γ)) (g : β → γ → β) :
    ∀ (cats : List String) (acc : β),
      cats.foldl (fun b c => (List.lookup c tbl).elim b (fun v => g b v)) acc
        = (cats.filterMap (fun c => List.lookup c tbl)).foldl g acc := by
  intro cats
  induction cats with
  | nil => intro acc; rfl
  | cons c t ih =>
      intro acc
      rw [List.foldl_cons, List.filterMap_cons]
      cases h : List.lookup c tbl with
      | none => simp only [h, Option.elim]; exact ih acc
      | some v => simp only [h, Option.elim, List.foldl_cons]; exact ih (g acc v)

/-- C6: unresolved category identifiers are silently skipped for their own
bucket only.  Unconditionally, bucketing a record equals folding the rule
into exactly the buckets of its resolved category codes, in order — so a
mixed record still lands in every resolved bucket (stated explicitly for a
record with one unresolved and one resolved code); in particular a record
whose every code is unresolved changes no bucket and produces no output.
This holds for the static-table converter and the category-aware one, and
the step functions are total, so an unresolved code can never abort a
run. -/
theorem claim_unresolved_categories_dropped :
    (∀ (buckets : List (String × List TJ.DetectionRule)) (n : String) (d : TJ.Technology),
        TechJSON.stepTech buckets (n, d)
          = (d.Cats.filterMap (fun c => List.lookup c TechJSON.categoryMappings)).foldl
              (fun b cat => TJ.addRule b cat (TechJSON.createRule n d)) buckets)
    ∧ (∀ (catsDict : List (String × String))
        (buckets : List (String × List TJ.DetectionRule)) (n : String) (d : TJ.Technology),
        TechJSONCats.stepTech catsDict buckets (n, d)
          = (d.Cats.filterMap (fun c => List.lookup c catsDict)).foldl
              (fun b cat => TJ.addRule b cat (TechJSONCats.createRule n d)) buckets)
    ∧ (∀ (buckets : List (String × List TJ.DetectionRule)) (n : String) (d : TJ.Technology)
        (c1 c2 cat : String), d.Cats = [c1, c2] →
        List.lookup c1 TechJSON.categoryMappings = none →
        List.lookup c2 TechJSON.categoryMappings = some cat →
        TechJSON.stepTech buckets (n, d)
          = TJ.addRule buckets cat (TechJSON.createRule n d))
    ∧ (∀ (buckets : List (String × List TJ.DetectionRule)) (n : String) (d : TJ.Technology),
        (∀ c ∈ d.Cats, List.lookup c TechJSON.categoryMappings = none) →
        TechJSON.stepTech buckets (n, d) = buckets)
    ∧ (∀ (n : String) (d : TJ.Technology),
        (∀ c ∈ d.Cats, List.lookup c TechJSON.categoryMappings = none) →
        TechJSON.bucketsOfTechs [(n, d)] = [])
    ∧ (∀ (catsDict : List (String × String))
        (buckets : List (String × List TJ.DetectionRule)) (n : String) (d : TJ.Technology),
        (∀ c ∈ d.Cats, List.lookup c catsDict = none) →
        TechJSONCats.stepTech catsDict buckets (n, d) = buckets) := by
  refine ⟨fun buckets n d => ?_, fun catsDict buckets n d => ?_,
    fun buckets n d c1 c2 cat hcats hc1 hc2 => ?_,
    fun buckets n d hall => ?_, fun n d hall => ?_, fun catsDict buckets n d hall => ?_⟩
  · simp only [TechJSON.stepTech]
    exact foldl_lookup_filterMap _
      (fun b cat => TJ.addRule b cat (TechJSON.createRule n d)) d.Cats buckets
  · simp only [TechJSONCats.stepTech]
    exact foldl_lookup_filterMap _
      (fun b cat => TJ.addRule b cat (TechJSONCats.createRule n d)) d.Cats buckets
  · simp only [TechJSON.stepTech, hcats, List.foldl_cons, List.foldl_nil, hc1, hc2,
      Option.elim]
  · simp only [TechJSON.stepTech]
    exact foldl_lookup_none _
      (fun b cat => TJ.addRule b cat (TechJSON.createRule n d)) d.Cats buckets hall
  · show TechJSON.stepTech [] (n, d) = []
    simp only [TechJSON.stepTech]
    exact foldl_lookup_none _
      (fun b cat => TJ.addRule b cat (TechJSON.createRule n d)) d.Cats [] hall
  · simp only [TechJSONCats.stepTech]
    exact foldl_lookup_none _
      (fun b cat => TJ.addRule b cat (TechJSONCats.createRule n d)) d.Cats buckets hall

/-- Witness for C6: a mixed record with unresolved code `999` and resolved
code `1` still lands in the `cms` bucket; a record with only unresolved
codes (`999`, `banana`) leaves buckets unchanged and produces no output,
under both converters. -/
theorem claim_unresolved_categories_dropped_witness :
    TechJSON.stepTech [] ("X", exTechMixedCats)
      = TJ.addRule [] "cms" (TechJSON.createRule "X" exTechMixedCats)
    ∧ TechJSON.stepTech [("cms", [])] ("X", exTechBadCats) = [("cms", [])]
    ∧ TechJSON.bucketsOfTechs [("X", exTechBadCats)] = []
    ∧ TechJSONCats.stepTech [("1", "cms")] [] ("X", exTechBadCats) = [] :=
  ⟨claim_unresolved_categories_dropped.2.2.1 [] "X" exTechMixedCats "999" "1" "cms"
      rfl (by decide) (by decide),
   claim_unresolved_categories_dropped.2.2.2.1 [("cms", [])] "X" exTechBadCats (by decide),
   claim_unresolved_categories_dropped.2.2.2.2.1 "X" exTechBadCats (by decide),
   claim_unresolved_categories_dropped.2.2.2.2.2 [("1", "cms")] [] "X" exTechBadCats
      (by decide)⟩

/-- The three sequential single-character replacements of the category-aware
converter equal one combined per-character map sending each space, forward
slash and backslash to a hyphen and leaving every other character alone. -/
theorem sanitize_eq_map (c : String) :
    TechJSONCats.sanitizeCategoryName c
      = ⟨c.data.map (fun ch => if ch = ' ' ∨ ch = '/' ∨ ch = '\\' then '-' else ch)⟩ := by
  simp only [TechJSONCats.sanitizeCategoryName, goReplaceAllChar, List.map_map]
  congr 1
  refine congrArg (fun g => List.map g c.data) ?_
  funext ch
  by_cases h1 : ch = ' ' <;> by_cases h2 : ch = '/' <;> by_cases h3 : ch = '\\' <;>
    simp [Function.comp, h1, h2, h3]

/-- C8: the category-aware converter sanitizes every category name before it
is embedded in the output filename fragment — each space, forward slash and
backslash becomes a hyphen, so none of those characters survives — while
the static-table converters embed the category name verbatim with no
sanitization. -/
theorem claim_filename_sanitization :
    (∀ c : String, TechJSONCats.sanitizeCategoryName c
        = ⟨c.data.map (fun ch => if ch = ' ' ∨ ch = '/' ∨ ch = '\\' then '-' else ch)⟩)
    ∧ (∀ c : String, ((TechJSONCats.sanitizeCategoryName c).data.any
          (fun ch => ch == ' ' || ch == '/' || ch == '\\')) = false)
    ∧ (∀ out c : String, TechJSONCats.outputFilename out c
        = out ++ "/detect-" ++ TechJSONCats.sanitizeCategoryName c ++ "-ruleset.yaml")
    ∧ (∀ out c : String, TechJSON.outputFilename out c
        = out ++ "/detect-" ++ c ++ "-ruleset.yaml")
    ∧ (∀ out c : String, BuiltWith.outputFilename out c
        = out ++ "/detect-" ++ c ++ "-ruleset.yaml") := by
  refine ⟨sanitize_eq_map, ?_, fun out c => rfl, fun out c => rfl, fun out c => rfl⟩
  intro c
  rw [sanitize_eq_map]
  show (c.data.map _).any _ = false
  rw [List.any_map]
  rw [List.any_eq_false]
  intro ch _
  by_cases h1 : ch = ' ' <;> by_cases h2 : ch = '/' <;> by_cases h3 : ch = '\\' <;>
    simp [Function.comp, h1, h2, h3]

/-- A filter that rejects every image of a map yields the empty list. -/
theorem filter_map_eq_nil {α β : Type} (l : List α) (f : α → β) (p : β → Bool)
    (h : ∀ a ∈ l, p (f a) = false) : (l.map f).filter p = [] := by
  induction l with
  | nil => rfl
  | cons a t ih =>
      rw [List.map_cons, List.filter_cons]
      simp [h a (List.mem_cons_self a t),
        ih fun x hx => h x (List.mem_cons_of_mem a hx)]

/-- Counterexample for C1: for a record whose only populated field is the
website, the static-table converter's `createRule` contains only 2
signatures referencing that URL (the URL micro-signature and the
anchor/href page-content signature) — not 4 — and emits no link-tag or
script-tag page-content signature at all. -/
theorem claim_website_four_signatures_cex :
    exTechWebsiteOnly.Website = "https://example.com"
    ∧ exTechWebsiteOnly.Website ≠ ""
    ∧ urlRefCount (TechJSON.createRule "Example" exTechWebsiteOnly) "https://example.com" = 2
    ∧ ((TechJSON.createRule "Example" exTechWebsiteOnly).PageContentPatterns.filter
        (fun p => p.Key == "link" || p.Key == "script")) = [] :=
  ⟨rfl, by decide, by decide, by decide⟩

/-- Mapping url substrings that avoid `w` to URL micro-signatures yields no
signature whose value is `w`. -/
theorem filter_sig_url_nil (w : String) (l : List String) (hw : w ∉ l) :
    (l.map (fun v => ({ Signature := v, Confidence := 10 } : TJ.URLMicroSignature))).filter
      (fun u => u.Signature == w) = [] := by
  induction l with
  | nil => rfl
  | cons a t ih =>
      have ha : (a == w) = false := by
        rw [beq_eq_false_iff_ne]
        exact fun h => hw (h ▸ List.mem_cons_self a t)
      have hw2 : w ∉ t := fun h => hw (List.mem_cons_of_mem a h)
      rw [List.map_cons, List.filter_cons]
      simp [ha, ih hw2]

/-- Mapping html/script substrings that avoid `w` to page-content signatures
yields no signature whose value list is `[w]`. -/
theorem filter_sig_page_nil (w key attr : String) (l : List String) (hw : w ∉ l) :
    (l.map (fun v =>
        ({ Key := key, Attribute := attr, Signature := [v], Text := [], Confidence := 10 }
          : TJ.PageContentSignature))).filter
      (fun p => p.Signature == [w]) = [] := by
  induction l with
  | nil => rfl
  | cons a t ih =>
      have ha : (([a] : List String) == [w]) = false := by
        rw [beq_eq_false_iff_ne]
        intro hEq
        injection hEq with h1 _
        exact hw (h1 ▸ List.mem_cons_self a t)
      have hw2 : w ∉ t := fun h => hw (List.mem_cons_of_mem a h)
      rw [List.map_cons, List.filter_cons]
      simp [ha, ih hw2]

/-- C1 (amended): for a record with a non-empty website that does not also
occur among its url, html or script patterns, the category-aware
converter's rule contains exactly 4 signatures referencing the website —
the URL micro-signature plus the anchor/href, link/href and script/src
page-content signatures — while the static-table converter's rule contains
exactly 2: the URL micro-signature and the anchor/href page-content
signature. -/
theorem claim_website_signatures_amended (n : String) (d : TJ.Technology)
    (hne : d.Website ≠ "") (hurl : d.Website ∉ d.URL)
    (hhtml : d.Website ∉ d.Html) (hscript : d.Website ∉ d.Scripts) :
    ((TechJSONCats.createRule n d).URLPatterns.filter
        (fun u => u.Signature == d.Website)
      = [{ Signature := d.Website, Confidence := 10 }])
    ∧ ((TechJSONCats.createRule n d).PageContentPatterns.filter
        (fun p => p.Signature == [d.Website])
      = [{ Key := "a", Attribute := "href", Signature := [d.Website], Text := [],
           Confidence := 10 },
         { Key := "link", Attribute := "href", Signature := [d.Website], Text := [],
           Confidence := 10 },
         { Key := "script", Attribute := "src", Signature := [d.Website], Text := [],
           Confidence := 10 }])
    ∧ urlRefCount (TechJSONCats.createRule n d) d.Website = 4
    ∧ ((TechJSON.createRule n d).URLPatterns.filter (fun u => u.Signature == d.Website)
      = [{ Signature := d.Website, Confidence := 10 }])
    ∧ ((TechJSON.createRule n d).PageContentPatterns.filter
        (fun p => p.Signature == [d.Website])
      = [{ Key := "a", Attribute := "href", Signature := [d.Website], Text := [],
           Confidence := 10 }])
    ∧ urlRefCount (TechJSON.createRule n d) d.Website = 2 := by
  have hcatsUrl : (TechJSONCats.createRule n d).URLPatterns.filter
      (fun u => u.Signature == d.Website)
      = [{ Signature := d.Website, Confidence := 10 }] := by
    simp only [TechJSONCats.createRule, if_pos hne]
    rw [List.filter_append, filter_sig_url_nil d.Website d.URL hurl, List.nil_append]
    simp [List.filter_cons]
  have hcatsPage : (TechJSONCats.createRule n d).PageContentPatterns.filter
      (fun p => p.Signature == [d.Website])
      = [{ Key := "a", Attribute := "href", Signature := [d.Website], Text := [],
           Confidence := 10 },
         { Key := "link", Attribute := "href", Signature := [d.Website], Text := [],
           Confidence := 10 },
         { Key := "script", Attribute := "src", Signature := [d.Website], Text := [],
           Confidence := 10 }] := by
    simp only [TechJSONCats.createRule, if_pos hne]
    rw [List.filter_append, List.filter_append,
      filter_sig_page_nil d.Website "html" "" d.Html hhtml,
      filter_sig_page_nil d.Website "script" "" d.Scripts hscript,
      List.nil_append, List.nil_append]
    simp [List.filter_cons]
  have hstatUrl : (TechJSON.createRule n d).URLPatterns.filter
      (fun u => u.Signature == d.Website)
      = [{ Signature := d.Website, Confidence := 10 }] := by
    simp only [TechJSON.createRule, if_pos hne]
    rw [List.filter_append, filter_sig_url_nil d.Website d.URL hurl, List.nil_append]
    simp [List.filter_cons]
  have hstatPage : (TechJSON.createRule n d).PageContentPatterns.filter
      (fun p => p.Signature == [d.Website])
      = [{ Key := "a", Attribute := "href", Signature := [d.Website], Text := [],
           Confidence := 10 }] := by
    simp only [TechJSON.createRule, if_pos hne]
    rw [List.filter_append, List.filter_append,
      filter_sig_page_nil d.Website "html" "" d.Html hhtml,
      filter_sig_page_nil d.Website "script" "" d.Scripts hscript,
      List.nil_append, List.nil_append]
    simp [List.filter_cons]
  refine ⟨hcatsUrl, hcatsPage, ?_, hstatUrl, hstatPage, ?_⟩
  · simp only [urlRefCount]
    rw [hcatsUrl, hcatsPage]
    rfl
  · simp only [urlRefCount]
    rw [hstatUrl, hstatPage]
    rfl

/-- Witness for the amended C1 at a concrete website-only record: 4
URL-referencing signatures from the category-aware converter, 2 from the
static-table converter. -/
theorem claim_website_signatures_amended_witness :
    urlRefCount (TechJSONCats.createRule "Example" exTechWebsiteOnly)
        exTechWebsiteOnly.Website = 4
    ∧ urlRefCount (TechJSON.createRule "Example" exTechWebsiteOnly)
        exTechWebsiteOnly.Website = 2 :=
  ⟨(claim_website_signatures_amended "Example" exTechWebsiteOnly (by decide) (by decide)
      (by decide) (by decide)).2.2.1,
   (claim_website_signatures_amended "Example" exTechWebsiteOnly (by decide) (by decide)
      (by decide) (by decide)).2.2.2.2.2⟩

/-- A captured `[^q]+` run is nonempty, so `quotedCapture` never returns the
empty string. -/
theorem quotedCapture_ne_empty (lit : List Char) (q : Char) :
    ∀ (cs : List Char) (s : String), ModSec.quotedCapture lit q cs = some s → s ≠ "" := by
  intro cs
  induction cs with
  | nil => intro s h; simp [ModSec.quotedCapture] at h
  | cons c t ih =>
      intro s h
      rw [ModSec.quotedCapture] at h
      split at h
      · dsimp only at h
        split at h
        · rename_i hrun
          injection h with h1
          subst h1
          intro hs
          exact hrun.1 (congrArg String.data hs)
        · exact ih s h
      · exact ih s h

/-- The User-Agent extraction never yields the empty string. -/
theorem uaOf_ne_empty (l : String) (s : String) (h : ModSec.uaOf l = some s) : s ≠ "" :=
  quotedCapture_ne_empty _ _ _ s h

/-- A nonempty string has a nonzero length. -/
theorem length_beq_zero_false (l : String) (h : l ≠ "") : (l.length == 0) = false := by
  rw [beq_eq_false_iff_ne]
  intro hlen
  apply h
  cases l with
  | mk d =>
      cases d with
      | nil => rfl
      | cons c cs => simp [String.length] at hlen

/-- Counterexample for C3: a commented-out input line that contains both the
`id:12345` token and the `REQUEST_HEADERS:User-Agent "BadBot"` operand —
both extractors find their values on it — is skipped by the scan loop,
so no rule at all is emitted for it. -/
theorem claim_modsec_comment_line_cex :
    ModSec.idOf modsecCommentLine = some "12345"
    ∧ ModSec.uaOf modsecCommentLine = some "BadBot"
    ∧ lineIsComment modsecCommentLine = true
    ∧ ModSec.processLine modsecCommentLine = none
    ∧ ModSec.processLines [modsecCommentLine] = [] := by
  decide

/-- C3 (amended): for a non-comment line, if extraction finds User-Agent
`BadBot` and id `12345`, the converter emits exactly the rule
`detect_modsec_rule_12345` with the single header-field signature for
`User-Agent` and value `["BadBot"]` at confidence 10; and a line with no
extractable User-Agent emits no rule at all. -/
theorem claim_modsec_line_rule_amended (l : String) :
    (lineIsComment l = false → ModSec.uaOf l = some "BadBot" →
      ModSec.idOf l = some "12345" →
      ModSec.processLine l
        = some { RuleName := "detect_modsec_rule_12345",
                 ObjectName := "ModSecurity Rule 12345",
                 HTTPHeaderFields := [{ Key := "User-Agent", Value := ["BadBot"],
                                        Confidence := 10 }] })
    ∧ (ModSec.uaOf l = none → ModSec.processLine l = none) := by
  constructor
  · intro hc hua hid
    have hlne : l ≠ "" := by
      intro h
      rw [h] at hua
      simp [ModSec.uaOf, ModSec.quotedCapture] at hua
    have hlen : (l.length == 0) = false := length_beq_zero_false l hlne
    show (if lineIsComment l || l.length == 0 then none else ModSec.ruleOfLine l) = _
    rw [hc, hlen]
    simp only [Bool.or_self, Bool.false_eq_true, if_false]
    simp only [ModSec.ruleOfLine, ModSec.parseModSecurityRule, hua, hid]
    simp [ModSec.createDetectionRuleFromModSecurity]
  · intro hua
    show (if lineIsComment l || l.length == 0 then none else ModSec.ruleOfLine l) = none
    split
    · rfl
    · simp [ModSec.ruleOfLine, ModSec.parseModSecurityRule, hua]

/-- Witness for the amended C3: the well-formed line emits exactly the
expected rule; the line without a User-Agent emits nothing. -/
theorem claim_modsec_line_rule_amended_witness :
    ModSec.processLine modsecGoodLine
      = some { RuleName := "detect_modsec_rule_12345",
               ObjectName := "ModSecurity Rule 12345",
               HTTPHeaderFields := [{ Key := "User-Agent", Value := ["BadBot"],
                                      Confidence := 10 }] }
    ∧ ModSec.processLine modsecNoUALine = none :=
  ⟨(claim_modsec_line_rule_amended modsecGoodLine).1 (by decide) (by decide) (by decide),
   (claim_modsec_line_rule_amended modsecNoUALine).2 (by decide)⟩

/-- C9: a line with an extractable User-Agent but no `id:<digits>` token is
still kept by the parse-and-filter stage: the ID defaults to the empty
string, so the rule is named exactly `detect_modsec_rule_` with object
name `ModSecurity Rule `; and in general the filter keeps a line exactly
when a User-Agent was extracted. -/
theorem claim_modsec_missing_id (l ua : String)
    (hua : ModSec.uaOf l = some ua) (hid : ModSec.idOf l = none) :
    ModSec.ruleOfLine l
      = some { RuleName := "detect_modsec_rule_", ObjectName := "ModSecurity Rule ",
               HTTPHeaderFields := [{ Key := "User-Agent", Value := [ua],
                                      Confidence := 10 }] }
    ∧ (∀ l2 : String, (ModSec.ruleOfLine l2).isSome = (ModSec.uaOf l2).isSome) := by
  constructor
  · have hne : ua ≠ "" := uaOf_ne_empty l ua hua
    simp only [ModSec.ruleOfLine, ModSec.parseModSecurityRule, hua, hid]
    simp [hne, ModSec.createDetectionRuleFromModSecurity]
  · intro l2
    cases h2 : ModSec.uaOf l2 with
    | none => simp [ModSec.ruleOfLine, ModSec.parseModSecurityRule, h2]
    | some s =>
        have hs : s ≠ "" := uaOf_ne_empty l2 s h2
        simp [ModSec.ruleOfLine, ModSec.parseModSecurityRule, h2, hs]

/-- Witness for C9: the concrete id-less line yields the rule with the bare
`detect_modsec_rule_` name. -/
theorem claim_modsec_missing_id_witness :
    ModSec.ruleOfLine modsecNoIdLine
      = some { RuleName := "detect_modsec_rule_", ObjectName := "ModSecurity Rule ",
               HTTPHeaderFields := [{ Key := "User-Agent", Value := ["EvilBot"],
                                      Confidence := 10 }] } :=
  (claim_modsec_missing_id modsecNoIdLine "EvilBot" (by decide) (by decide)).1
